import Mathlib

/-!
Verification of the AiRoyalties_FHE contract (Solidity, fhevm).

Shallow embedding conventions:
* uint256 values are Nat with explicit overflow checks (Solidity 0.8 checked
  arithmetic reverts on overflow; a revert is an error and no state change).
* euint32 / ebool ciphertext handles are modelled by their plaintext contents
  (Nat / Bool); FHE.asEuint32 of a uint32 wraps the value, FHE.decrypt reads it.
  An absent mapping entry yields the zero handle, which decrypts to 0 / false.
* bytes32 values (contributor hashes) are Nat; bytes32(0) is 0.
* External calls: FHE.requestDecryption returns a fresh request id chosen by the
  oracle, modelled as an explicit parameter; the list of ciphertexts passed to
  the oracle is returned alongside the new state. FHE.checkSignatures is an
  external verifier modelled by a Bool parameter (revert when false).
* abi.decode of uintN cleartexts reverts when a value does not fit; modelled by
  explicit bound checks producing a decode error.
* Each public function returns Except: an error models a revert, in which case
  the EVM rolls the whole call back, so no state component changes.
-/

namespace AiRoyalties

/-- Mirrors struct EncryptedContribution of the contract. -/
structure EncryptedContribution where
  id : Nat
  encryptedComputeHours : Nat
  encryptedDataQuality : Nat
  encryptedModelImpact : Nat
  timestamp : Nat
  contributorHash : Nat
  deriving Repr, DecidableEq

/-- Mirrors struct RoyaltyDistribution: two euint32 fields and an ebool. -/
structure RoyaltyDistribution where
  encryptedShare : Nat
  encryptedPaymentAmount : Nat
  isClaimed : Bool
  deriving Repr, DecidableEq

/-- Mirrors struct DecryptedRoyalty (the plaintext audit record). -/
structure DecryptedRoyalty where
  sharePercentage : Nat
  paymentAmount : Nat
  isRevealed : Bool
  deriving Repr, DecidableEq

/-- Events emitted by the contract. -/
inductive Event where
  | ContributionRecorded (id contributorHash timestamp : Nat)
  | RoyaltyCalculationRequested (contributionId : Nat)
  | RoyaltyDecrypted (contributionId : Nat)
  | RewardPoolDeposited (amount : Nat)
  deriving Repr, DecidableEq

/-- Revert causes of the contract. The first three correspond to the require
messages in the source; invalidProof models a revert inside FHE.checkSignatures,
decodeFailure a revert inside abi.decode, overflow a checked-arithmetic panic. -/
inductive SolError where
  | invalidRequest
  | alreadyProcessed
  | alreadyClaimed
  | invalidProof
  | decodeFailure
  | overflow
  deriving Repr, DecidableEq

/-- Solidity mapping: total function with zero-initialised default. -/
def mapUpdate {α : Type} (m : Nat → α) (k : Nat) (v : α) : Nat → α :=
  fun j => if j = k then v else m j

/-- The contract storage, plus the emitted event log. -/
structure ContractState where
  contributionCount : Nat
  totalRewardPool : Nat
  contributions : Nat → EncryptedContribution
  royaltyDistributions : Nat → RoyaltyDistribution
  decryptedRoyalties : Nat → DecryptedRoyalty
  requestToContributionId : Nat → Nat
  requestToContributorHash : Nat → Nat
  log : List Event

/-- Zero-initialised storage of a freshly deployed contract. -/
def initialState : ContractState where
  contributionCount := 0
  totalRewardPool := 0
  contributions := fun _ => ⟨0, 0, 0, 0, 0, 0⟩
  royaltyDistributions := fun _ => ⟨0, 0, false⟩
  decryptedRoyalties := fun _ => ⟨0, 0, false⟩
  requestToContributionId := fun _ => 0
  requestToContributorHash := fun _ => 0
  log := []

/-- uint256 modulus. -/
def U256 : Nat := 2 ^ 256

/-- uint32 modulus. -/
def U32 : Nat := 2 ^ 32

/-- function depositRewardPool() public payable: totalRewardPool += msg.value
(checked add), then emits RewardPoolDeposited. -/
def depositRewardPool (s : ContractState) (msgValue : Nat) :
    Except SolError ContractState :=
  if s.totalRewardPool + msgValue < U256 then
    .ok { s with
      totalRewardPool := s.totalRewardPool + msgValue
      log := s.log ++ [Event.RewardPoolDeposited msgValue] }
  else .error .overflow

/-- function submitEncryptedContribution: contributionCount += 1 (checked),
stores the record at the new id, emits ContributionRecorded. The Solidity
function declares no return values, so the ABI return list is empty. -/
def submitEncryptedContribution (s : ContractState)
    (computeHours dataQuality modelImpact contributorHash timestamp : Nat) :
    Except SolError (ContractState × List Nat) :=
  if s.contributionCount + 1 < U256 then
    let newId := s.contributionCount + 1
    .ok ({ s with
      contributionCount := newId
      contributions := mapUpdate s.contributions newId
        ⟨newId, computeHours, dataQuality, modelImpact, timestamp, contributorHash⟩
      log := s.log ++ [Event.ContributionRecorded newId contributorHash timestamp] },
      [])
  else .error .overflow

/-- function calculateRoyaltyShare(uint256 contributionId): reads the (possibly
absent) contribution, passes its three metric ciphertexts to
FHE.requestDecryption, records requestId -> contributionId, emits the event.
reqId is the fresh id the oracle returns; the second component is the
ciphertext list handed to the oracle. The source performs no precondition
checks, so the function never reverts. -/
def calculateRoyaltyShare (s : ContractState) (contributionId reqId : Nat) :
    Except SolError (ContractState × List Nat) :=
  let contrib := s.contributions contributionId
  .ok ({ s with
    requestToContributionId :=
      mapUpdate s.requestToContributionId reqId contributionId
    log := s.log ++ [Event.RoyaltyCalculationRequested contributionId] },
    [contrib.encryptedComputeHours, contrib.encryptedDataQuality,
     contrib.encryptedModelImpact])

/-- function calculateSharePercentage(uint32,uint32,uint32) private pure:
(computeHours * 40 + dataQuality * 35 + modelImpact * 25) / 100 in checked
uint32 arithmetic, evaluated left to right; any intermediate not below 2^32
reverts with an overflow panic. -/
def calculateSharePercentage (computeHours dataQuality modelImpact : Nat) :
    Except SolError Nat :=
  let p1 := computeHours * 40
  if p1 < U32 then
    let p2 := dataQuality * 35
    if p2 < U32 then
      let s1 := p1 + p2
      if s1 < U32 then
        let p3 := modelImpact * 25
        if p3 < U32 then
          let s2 := s1 + p3
          if s2 < U32 then .ok (s2 / 100)
          else .error .overflow
        else .error .overflow
      else .error .overflow
    else .error .overflow
  else .error .overflow

/-- function processRoyaltyCalculation(uint256 requestId, bytes cleartexts,
bytes proof): the oracle callback for a calculation request. Checks the
request registry (entry 0 means unknown), requires the contributor's
distribution not to be claimed, verifies the oracle signatures, decodes the
three uint32 metrics, computes share and payment, then writes the
RoyaltyDistribution (payment truncated by the uint32 cast) and the plaintext
DecryptedRoyalty audit record (full uint256 payment). The registry entry is
not removed. -/
def processRoyaltyCalculation (s : ContractState)
    (requestId computeHours dataQuality modelImpact : Nat) (proofOk : Bool) :
    Except SolError ContractState :=
  let contributionId := s.requestToContributionId requestId
  if contributionId = 0 then .error .invalidRequest
  else
    let contrib := s.contributions contributionId
    if (s.royaltyDistributions contrib.contributorHash).isClaimed then
      .error .alreadyProcessed
    else if !proofOk then .error .invalidProof
    else if computeHours < U32 ∧ dataQuality < U32 ∧ modelImpact < U32 then
      match calculateSharePercentage computeHours dataQuality modelImpact with
      | .error e => .error e
      | .ok share =>
        if s.totalRewardPool * share < U256 then
          let payment := s.totalRewardPool * share / 10000
          .ok { s with
            royaltyDistributions :=
              mapUpdate s.royaltyDistributions contrib.contributorHash
                ⟨share, payment % U32, false⟩
            decryptedRoyalties :=
              mapUpdate s.decryptedRoyalties contributionId
                ⟨share, payment, true⟩
            log := s.log ++ [Event.RoyaltyDecrypted contributionId] }
        else .error .overflow
    else .error .decodeFailure

/-- function claimRoyalty(bytes32 contributorHash): requires the decrypted
isClaimed flag to be false (an absent distribution decrypts to false), then
passes the encrypted payment amount to FHE.requestDecryption and records
requestId -> contributorHash. The second component is the ciphertext list
handed to the oracle. There is no distribution-existence check. -/
def claimRoyalty (s : ContractState) (contributorHash reqId : Nat) :
    Except SolError (ContractState × List Nat) :=
  let dist := s.royaltyDistributions contributorHash
  if dist.isClaimed then .error .alreadyClaimed
  else
    .ok ({ s with
      requestToContributorHash :=
        mapUpdate s.requestToContributorHash reqId contributorHash },
      [dist.encryptedPaymentAmount])

/-- function processRoyaltyPayment(uint256 requestId, bytes cleartexts,
bytes proof): the oracle callback for a claim request. Checks the registry
(entry bytes32(0) means unknown), requires isClaimed to still be false,
verifies signatures, decodes the uint32 amount, then sets isClaimed to true.
The registry entry is not removed and the fund transfer is a comment in the
source. -/
def processRoyaltyPayment (s : ContractState) (requestId amount : Nat)
    (proofOk : Bool) : Except SolError ContractState :=
  let contributorHash := s.requestToContributorHash requestId
  if contributorHash = 0 then .error .invalidRequest
  else
    let dist := s.royaltyDistributions contributorHash
    if dist.isClaimed then .error .alreadyProcessed
    else if !proofOk then .error .invalidProof
    else if amount < U32 then
      .ok { s with
        royaltyDistributions := mapUpdate s.royaltyDistributions contributorHash
          ⟨dist.encryptedShare, dist.encryptedPaymentAmount, true⟩ }
    else .error .decodeFailure

/-- function getDecryptedRoyalty(uint256) public view: pure read of the audit
record, default tuple when never revealed. -/
def getDecryptedRoyalty (s : ContractState) (contributionId : Nat) :
    Nat × Nat × Bool :=
  let r := s.decryptedRoyalties contributionId
  (r.sharePercentage, r.paymentAmount, r.isRevealed)

/-- One externally observable operation on the contract. -/
inductive Op where
  | deposit (msgValue : Nat)
  | submit (computeHours dataQuality modelImpact contributorHash timestamp : Nat)
  | requestCalc (contributionId reqId : Nat)
  | calcCallback (requestId computeHours dataQuality modelImpact : Nat)
      (proofOk : Bool)
  | requestClaim (contributorHash reqId : Nat)
  | payCallback (requestId amount : Nat) (proofOk : Bool)
  deriving Repr, DecidableEq

/-- Dispatch an operation to the corresponding contract function, discarding
ABI return data and oracle payloads. -/
def applyOp (s : ContractState) : Op → Except SolError ContractState
  | .deposit v => depositRewardPool s v
  | .submit ch dq mi h t =>
      (submitEncryptedContribution s ch dq mi h t).map Prod.fst
  | .requestCalc cid r => (calculateRoyaltyShare s cid r).map Prod.fst
  | .calcCallback r ch dq mi p => processRoyaltyCalculation s r ch dq mi p
  | .requestClaim h r => (claimRoyalty s h r).map Prod.fst
  | .payCallback r a p => processRoyaltyPayment s r a p

/-- EVM transaction semantics: a revert rolls the state back unchanged. -/
def stepResult (s : ContractState) (op : Op) : ContractState :=
  match applyOp s op with
  | .ok s2 => s2
  | .error _ => s

/-- Run a sequence of transactions. -/
def run (s : ContractState) (ops : List Op) : ContractState :=
  ops.foldl stepResult s

/-- Boolean success test for a call result. -/
def exOk {ε α : Type} : Except ε α → Bool
  | .ok _ => true
  | .error _ => false

/-! ## Helper lemmas: success and failure characterizations -/

lemma mapUpdate_same {α : Type} (m : Nat → α) (k : Nat) (v : α) :
    mapUpdate m k v k = v := by simp [mapUpdate]

lemma mapUpdate_other {α : Type} (m : Nat → α) (k j : Nat) (v : α)
    (h : j ≠ k) : mapUpdate m k v j = m j := by simp [mapUpdate, h]

lemma stepResult_of_ok {s s2 : ContractState} {op : Op}
    (h : applyOp s op = .ok s2) : stepResult s op = s2 := by
  simp [stepResult, h]

lemma stepResult_of_error {s : ContractState} {op : Op} {e : SolError}
    (h : applyOp s op = .error e) : stepResult s op = s := by
  simp [stepResult, h]

lemma processRoyaltyCalculation_ok_elim {s s2 : ContractState}
    {r ch dq mi : Nat} {p : Bool}
    (h : processRoyaltyCalculation s r ch dq mi p = .ok s2) :
    ∃ share,
      s.requestToContributionId r ≠ 0 ∧
      (s.royaltyDistributions
        (s.contributions (s.requestToContributionId r)).contributorHash).isClaimed
        = false ∧
      p = true ∧
      calculateSharePercentage ch dq mi = .ok share ∧
      s.totalRewardPool * share < U256 ∧
      s2 = { s with
        royaltyDistributions := mapUpdate s.royaltyDistributions
          (s.contributions (s.requestToContributionId r)).contributorHash
          ⟨share, (s.totalRewardPool * share / 10000) % U32, false⟩
        decryptedRoyalties := mapUpdate s.decryptedRoyalties
          (s.requestToContributionId r)
          ⟨share, s.totalRewardPool * share / 10000, true⟩
        log := s.log ++ [Event.RoyaltyDecrypted (s.requestToContributionId r)] } := by
  unfold processRoyaltyCalculation at h
  by_cases h1 : s.requestToContributionId r = 0
  · simp [h1] at h
  cases hc : (s.royaltyDistributions
      (s.contributions (s.requestToContributionId r)).contributorHash).isClaimed with
  | true => simp [h1, hc] at h
  | false =>
    cases p with
    | false => simp [h1, hc] at h
    | true =>
      by_cases hdec : ch < U32 ∧ dq < U32 ∧ mi < U32
      · cases hcs : calculateSharePercentage ch dq mi with
        | error e => simp [h1, hc, hdec, hcs] at h
        | ok share =>
          by_cases hpool : s.totalRewardPool * share < U256
          · simp [h1, hc, hdec, hcs, hpool] at h
            exact ⟨share, h1, rfl, rfl, rfl, hpool, h.symm⟩
          · simp [h1, hc, hdec, hcs, hpool] at h
      · simp [h1, hc, hdec] at h

lemma processRoyaltyCalculation_ok_intro (s : ContractState)
    (r ch dq mi : Nat)
    (h1 : s.requestToContributionId r ≠ 0)
    (hc : (s.royaltyDistributions
      (s.contributions (s.requestToContributionId r)).contributorHash).isClaimed
      = false)
    (hdec : ch < U32 ∧ dq < U32 ∧ mi < U32)
    (share : Nat)
    (hcs : calculateSharePercentage ch dq mi = .ok share)
    (hpool : s.totalRewardPool * share < U256) :
    processRoyaltyCalculation s r ch dq mi true = .ok { s with
      royaltyDistributions := mapUpdate s.royaltyDistributions
        (s.contributions (s.requestToContributionId r)).contributorHash
        ⟨share, (s.totalRewardPool * share / 10000) % U32, false⟩
      decryptedRoyalties := mapUpdate s.decryptedRoyalties
        (s.requestToContributionId r)
        ⟨share, s.totalRewardPool * share / 10000, true⟩
      log := s.log ++ [Event.RoyaltyDecrypted (s.requestToContributionId r)] } := by
  unfold processRoyaltyCalculation
  simp [h1, hc, hdec, hcs, hpool]

lemma processRoyaltyPayment_ok_elim {s s2 : ContractState} {r a : Nat}
    {p : Bool} (h : processRoyaltyPayment s r a p = .ok s2) :
    s.requestToContributorHash r ≠ 0 ∧
    (s.royaltyDistributions (s.requestToContributorHash r)).isClaimed = false ∧
    p = true ∧ a < U32 ∧
    s2 = { s with
      royaltyDistributions := mapUpdate s.royaltyDistributions
        (s.requestToContributorHash r)
        ⟨(s.royaltyDistributions (s.requestToContributorHash r)).encryptedShare,
         (s.royaltyDistributions (s.requestToContributorHash r)).encryptedPaymentAmount,
         true⟩ } := by
  unfold processRoyaltyPayment at h
  by_cases h1 : s.requestToContributorHash r = 0
  · simp [h1] at h
  cases hc : (s.royaltyDistributions (s.requestToContributorHash r)).isClaimed with
  | true => simp [h1, hc] at h
  | false =>
    cases p with
    | false => simp [h1, hc] at h
    | true =>
      by_cases ha : a < U32
      · simp [h1, hc, ha] at h
        exact ⟨h1, rfl, rfl, ha, h.symm⟩
      · simp [h1, hc, ha] at h

lemma processRoyaltyPayment_ok_intro (s : ContractState) (r a : Nat)
    (h1 : s.requestToContributorHash r ≠ 0)
    (hc : (s.royaltyDistributions (s.requestToContributorHash r)).isClaimed = false)
    (ha : a < U32) :
    processRoyaltyPayment s r a true = .ok { s with
      royaltyDistributions := mapUpdate s.royaltyDistributions
        (s.requestToContributorHash r)
        ⟨(s.royaltyDistributions (s.requestToContributorHash r)).encryptedShare,
         (s.royaltyDistributions (s.requestToContributorHash r)).encryptedPaymentAmount,
         true⟩ } := by
  unfold processRoyaltyPayment
  simp [h1, hc, ha]

lemma claimRoyalty_ok_intro (s : ContractState) (k r : Nat)
    (hc : (s.royaltyDistributions k).isClaimed = false) :
    claimRoyalty s k r = .ok ({ s with
      requestToContributorHash := mapUpdate s.requestToContributorHash r k },
      [(s.royaltyDistributions k).encryptedPaymentAmount]) := by
  unfold claimRoyalty
  simp [hc]

lemma claimRoyalty_ok_elim {s s2 : ContractState} {k r : Nat} {cts : List Nat}
    (h : claimRoyalty s k r = .ok (s2, cts)) :
    (s.royaltyDistributions k).isClaimed = false ∧
    s2 = { s with
      requestToContributorHash := mapUpdate s.requestToContributorHash r k } ∧
    cts = [(s.royaltyDistributions k).encryptedPaymentAmount] := by
  unfold claimRoyalty at h
  cases hc : (s.royaltyDistributions k).isClaimed with
  | true => simp [hc] at h
  | false =>
    simp [hc] at h
    exact ⟨rfl, h.1.symm, h.2.symm⟩

lemma depositRewardPool_ok_intro (s : ContractState) (v : Nat)
    (h : s.totalRewardPool + v < U256) :
    depositRewardPool s v = .ok { s with
      totalRewardPool := s.totalRewardPool + v
      log := s.log ++ [Event.RewardPoolDeposited v] } := by
  unfold depositRewardPool
  simp [h]

lemma depositRewardPool_ok_elim {s s2 : ContractState} {v : Nat}
    (h : depositRewardPool s v = .ok s2) :
    s.totalRewardPool + v < U256 ∧
    s2 = { s with
      totalRewardPool := s.totalRewardPool + v
      log := s.log ++ [Event.RewardPoolDeposited v] } := by
  unfold depositRewardPool at h
  by_cases hv : s.totalRewardPool + v < U256
  · simp [hv] at h
    exact ⟨hv, h.symm⟩
  · simp [hv] at h

lemma submit_ok_intro (s : ContractState)
    (ch dq mi hash t : Nat) (h : s.contributionCount + 1 < U256) :
    submitEncryptedContribution s ch dq mi hash t = .ok ({ s with
      contributionCount := s.contributionCount + 1
      contributions := mapUpdate s.contributions (s.contributionCount + 1)
        ⟨s.contributionCount + 1, ch, dq, mi, t, hash⟩
      log := s.log ++
        [Event.ContributionRecorded (s.contributionCount + 1) hash t] },
      []) := by
  unfold submitEncryptedContribution
  simp [h]

lemma submit_ok_elim {s s2 : ContractState} {ch dq mi hash t : Nat}
    {ret : List Nat}
    (h : submitEncryptedContribution s ch dq mi hash t = .ok (s2, ret)) :
    s.contributionCount + 1 < U256 ∧ ret = [] ∧
    s2 = { s with
      contributionCount := s.contributionCount + 1
      contributions := mapUpdate s.contributions (s.contributionCount + 1)
        ⟨s.contributionCount + 1, ch, dq, mi, t, hash⟩
      log := s.log ++
        [Event.ContributionRecorded (s.contributionCount + 1) hash t] } := by
  unfold submitEncryptedContribution at h
  by_cases hcnt : s.contributionCount + 1 < U256
  · simp [hcnt] at h
    exact ⟨hcnt, h.2, h.1.symm⟩
  · simp [hcnt] at h

lemma calculateRoyaltyShare_eq (s : ContractState) (cid r : Nat) :
    calculateRoyaltyShare s cid r = .ok ({ s with
      requestToContributionId := mapUpdate s.requestToContributionId r cid
      log := s.log ++ [Event.RoyaltyCalculationRequested cid] },
      [(s.contributions cid).encryptedComputeHours,
       (s.contributions cid).encryptedDataQuality,
       (s.contributions cid).encryptedModelImpact]) := rfl

lemma calculateSharePercentage_formula (ch dq mi : Nat)
    (h : ch * 40 + dq * 35 + mi * 25 < U32) :
    calculateSharePercentage ch dq mi =
      .ok ((ch * 40 + dq * 35 + mi * 25) / 100) := by
  unfold calculateSharePercentage
  have h1 : ch * 40 < U32 := by omega
  have h2 : dq * 35 < U32 := by omega
  have h3 : ch * 40 + dq * 35 < U32 := by omega
  have h4 : mi * 25 < U32 := by omega
  simp [h1, h2, h3, h4, h]

lemma calculateSharePercentage_overflow (ch dq mi : Nat)
    (h : U32 ≤ ch * 40 + dq * 35 + mi * 25) :
    calculateSharePercentage ch dq mi = .error .overflow := by
  unfold calculateSharePercentage
  by_cases h1 : ch * 40 < U32
  · by_cases h2 : dq * 35 < U32
    · by_cases h3 : ch * 40 + dq * 35 < U32
      · by_cases h4 : mi * 25 < U32
        · have h5 : ¬ (ch * 40 + dq * 35 + mi * 25 < U32) := by omega
          simp [h1, h2, h3, h4, h5]
        · simp [h1, h2, h3, h4]
      · simp [h1, h2, h3]
    · simp [h1, h2]
  · simp [h1]

lemma calculateSharePercentage_ok_elim {ch dq mi v : Nat}
    (h : calculateSharePercentage ch dq mi = .ok v) :
    ch * 40 < U32 ∧ dq * 35 < U32 ∧ mi * 25 < U32 ∧
    ch * 40 + dq * 35 + mi * 25 < U32 ∧
    v = (ch * 40 + dq * 35 + mi * 25) / 100 := by
  by_cases hsum : ch * 40 + dq * 35 + mi * 25 < U32
  · rw [calculateSharePercentage_formula ch dq mi hsum] at h
    refine ⟨by omega, by omega, by omega, hsum, ?_⟩
    injection h with h2
    exact h2.symm
  · rw [calculateSharePercentage_overflow ch dq mi (by omega)] at h
    simp at h

/-! ## Step-level and trace-level preservation lemmas -/

lemma map_fst_ok {x : Except SolError (ContractState × List Nat)}
    {s2 : ContractState} (h : x.map Prod.fst = .ok s2) :
    ∃ ret, x = .ok (s2, ret) := by
  cases x with
  | error e => simp [Except.map] at h
  | ok pr =>
    cases pr with
    | mk a b =>
      simp [Except.map] at h
      exact ⟨b, by rw [h]⟩

/-- Amount by which an operation deposits into the pool. -/
def depositAmount : Op → Nat
  | .deposit v => v
  | _ => 0

/-- Total amount deposited by a list of operations. -/
def depositSum (ops : List Op) : Nat := (ops.map depositAmount).sum

lemma applyOp_ok_pool {s s2 : ContractState} {op : Op}
    (h : applyOp s op = .ok s2) :
    s2.totalRewardPool = s.totalRewardPool + depositAmount op := by
  cases op with
  | deposit v =>
    obtain ⟨-, h2⟩ := depositRewardPool_ok_elim h
    subst h2; rfl
  | submit ch dq mi hash t =>
    simp only [applyOp] at h
    obtain ⟨ret, hs⟩ := map_fst_ok h
    obtain ⟨-, -, h2⟩ := submit_ok_elim hs
    subst h2; simp [depositAmount]
  | requestCalc cid r =>
    simp only [applyOp] at h
    obtain ⟨ret, hs⟩ := map_fst_ok h
    rw [calculateRoyaltyShare_eq] at hs
    injection hs with hs
    injection hs with hs1 hs2
    subst hs1; simp [depositAmount]
  | calcCallback r ch dq mi p =>
    simp only [applyOp] at h
    obtain ⟨share, -, -, -, -, -, h2⟩ := processRoyaltyCalculation_ok_elim h
    subst h2; simp [depositAmount]
  | requestClaim k r =>
    simp only [applyOp] at h
    obtain ⟨ret, hs⟩ := map_fst_ok h
    obtain ⟨-, h2, -⟩ := claimRoyalty_ok_elim hs
    subst h2; simp [depositAmount]
  | payCallback r a p =>
    simp only [applyOp] at h
    obtain ⟨-, -, -, -, h2⟩ := processRoyaltyPayment_ok_elim h
    subst h2; simp [depositAmount]

lemma stepResult_pool_succ (s : ContractState) (op : Op)
    (h : s.totalRewardPool + depositAmount op < U256) :
    (stepResult s op).totalRewardPool = s.totalRewardPool + depositAmount op := by
  cases hstep : applyOp s op with
  | error e =>
    rw [stepResult_of_error hstep]
    cases op with
    | deposit v =>
      rw [show applyOp s (.deposit v) = depositRewardPool s v from rfl,
        depositRewardPool_ok_intro s v h] at hstep
      cases hstep
    | submit ch dq mi hash t => simp [depositAmount]
    | requestCalc cid r => simp [depositAmount]
    | calcCallback r ch dq mi p => simp [depositAmount]
    | requestClaim k r => simp [depositAmount]
    | payCallback r a p => simp [depositAmount]
  | ok s2 =>
    rw [stepResult_of_ok hstep]
    exact applyOp_ok_pool hstep

lemma stepResult_pool_mono (s : ContractState) (op : Op) :
    s.totalRewardPool ≤ (stepResult s op).totalRewardPool := by
  cases hstep : applyOp s op with
  | error e => rw [stepResult_of_error hstep]
  | ok s2 => rw [stepResult_of_ok hstep, applyOp_ok_pool hstep]; omega

lemma run_pool_sum (s : ContractState) (ops : List Op)
    (h : s.totalRewardPool + depositSum ops < U256) :
    (run s ops).totalRewardPool = s.totalRewardPool + depositSum ops := by
  induction ops generalizing s with
  | nil => simp [run, depositSum]
  | cons op rest ih =>
    have hsum : depositSum (op :: rest) = depositAmount op + depositSum rest := by
      simp [depositSum]
    have hop : s.totalRewardPool + depositAmount op < U256 := by omega
    have hrun : run s (op :: rest) = run (stepResult s op) rest := rfl
    rw [hrun, ih (stepResult s op) (by rw [stepResult_pool_succ s op hop]; omega),
      stepResult_pool_succ s op hop]
    omega

lemma run_pool_mono (s : ContractState) (ops : List Op) :
    s.totalRewardPool ≤ (run s ops).totalRewardPool := by
  induction ops generalizing s with
  | nil => exact Nat.le_refl _
  | cons op rest ih =>
    exact Nat.le_trans (stepResult_pool_mono s op) (ih (stepResult s op))



lemma applyOp_ok_claimed_true {s s2 : ContractState} {op : Op} {k : Nat}
    (h : applyOp s op = .ok s2)
    (hk : (s.royaltyDistributions k).isClaimed = true) :
    (s2.royaltyDistributions k).isClaimed = true := by
  cases op with
  | deposit v =>
    obtain ⟨-, h2⟩ := depositRewardPool_ok_elim h
    subst h2; exact hk
  | submit ch dq mi hash t =>
    simp only [applyOp] at h
    obtain ⟨ret, hs⟩ := map_fst_ok h
    obtain ⟨-, -, h2⟩ := submit_ok_elim hs
    subst h2; exact hk
  | requestCalc cid r =>
    simp only [applyOp] at h
    obtain ⟨ret, hs⟩ := map_fst_ok h
    rw [calculateRoyaltyShare_eq] at hs
    injection hs with hs
    injection hs with hs1 hs2
    subst hs1; exact hk
  | calcCallback r ch dq mi p =>
    simp only [applyOp] at h
    obtain ⟨share, h1, hc, hp, hcs, hpool, h2⟩ := processRoyaltyCalculation_ok_elim h
    subst h2
    by_cases hkey : k =
        (s.contributions (s.requestToContributionId r)).contributorHash
    · rw [hkey] at hk
      rw [hk] at hc
      cases hc
    · show (mapUpdate s.royaltyDistributions _ _ k).isClaimed = true
      rw [mapUpdate_other _ _ _ _ hkey]
      exact hk
  | requestClaim kk r =>
    simp only [applyOp] at h
    obtain ⟨ret, hs⟩ := map_fst_ok h
    obtain ⟨-, h2, -⟩ := claimRoyalty_ok_elim hs
    subst h2; exact hk
  | payCallback r a p =>
    simp only [applyOp] at h
    obtain ⟨-, -, -, -, h2⟩ := processRoyaltyPayment_ok_elim h
    subst h2
    by_cases hkey : k = s.requestToContributorHash r
    · show (mapUpdate s.royaltyDistributions _ _ k).isClaimed = true
      rw [hkey, mapUpdate_same]
    · show (mapUpdate s.royaltyDistributions _ _ k).isClaimed = true
      rw [mapUpdate_other _ _ _ _ hkey]
      exact hk

lemma stepResult_claimed_true (s : ContractState) (op : Op) (k : Nat)
    (hk : (s.royaltyDistributions k).isClaimed = true) :
    ((stepResult s op).royaltyDistributions k).isClaimed = true := by
  cases hstep : applyOp s op with
  | error e => rw [stepResult_of_error hstep]; exact hk
  | ok s2 => rw [stepResult_of_ok hstep]; exact applyOp_ok_claimed_true hstep hk

lemma run_claimed_true (s : ContractState) (ops : List Op) (k : Nat)
    (hk : (s.royaltyDistributions k).isClaimed = true) :
    (((run s ops).royaltyDistributions k).isClaimed = true) := by
  induction ops generalizing s with
  | nil => exact hk
  | cons op rest ih => exact ih (stepResult s op) (stepResult_claimed_true s op k hk)

lemma applyOp_ok_contrib {s s2 : ContractState} {op : Op}
    (h : applyOp s op = .ok s2) :
    s.contributionCount ≤ s2.contributionCount ∧
    ∀ id, id ≤ s.contributionCount → s2.contributions id = s.contributions id := by
  cases op with
  | deposit v =>
    obtain ⟨-, h2⟩ := depositRewardPool_ok_elim h
    subst h2; exact ⟨Nat.le_refl _, fun _ _ => rfl⟩
  | submit ch dq mi hash t =>
    simp only [applyOp] at h
    obtain ⟨ret, hs⟩ := map_fst_ok h
    obtain ⟨-, -, h2⟩ := submit_ok_elim hs
    subst h2
    refine ⟨Nat.le_succ _, fun id hid => ?_⟩
    show mapUpdate s.contributions (s.contributionCount + 1) _ id = _
    rw [mapUpdate_other _ _ _ _ (by omega)]
  | requestCalc cid r =>
    simp only [applyOp] at h
    obtain ⟨ret, hs⟩ := map_fst_ok h
    rw [calculateRoyaltyShare_eq] at hs
    injection hs with hs
    injection hs with hs1 hs2
    subst hs1; exact ⟨Nat.le_refl _, fun _ _ => rfl⟩
  | calcCallback r ch dq mi p =>
    simp only [applyOp] at h
    obtain ⟨share, h1, hc, hp, hcs, hpool, h2⟩ := processRoyaltyCalculation_ok_elim h
    subst h2; exact ⟨Nat.le_refl _, fun _ _ => rfl⟩
  | requestClaim kk r =>
    simp only [applyOp] at h
    obtain ⟨ret, hs⟩ := map_fst_ok h
    obtain ⟨-, h2, -⟩ := claimRoyalty_ok_elim hs
    subst h2; exact ⟨Nat.le_refl _, fun _ _ => rfl⟩
  | payCallback r a p =>
    simp only [applyOp] at h
    obtain ⟨-, -, -, -, h2⟩ := processRoyaltyPayment_ok_elim h
    subst h2; exact ⟨Nat.le_refl _, fun _ _ => rfl⟩

lemma stepResult_contrib (s : ContractState) (op : Op) :
    s.contributionCount ≤ (stepResult s op).contributionCount ∧
    ∀ id, id ≤ s.contributionCount →
      (stepResult s op).contributions id = s.contributions id := by
  cases hstep : applyOp s op with
  | error e =>
    rw [stepResult_of_error hstep]
    exact ⟨Nat.le_refl _, fun _ _ => rfl⟩
  | ok s2 =>
    rw [stepResult_of_ok hstep]
    exact applyOp_ok_contrib hstep

lemma run_contrib (s : ContractState) (ops : List Op) :
    s.contributionCount ≤ (run s ops).contributionCount ∧
    ∀ id, id ≤ s.contributionCount →
      (run s ops).contributions id = s.contributions id := by
  induction ops generalizing s with
  | nil => exact ⟨Nat.le_refl _, fun _ _ => rfl⟩
  | cons op rest ih =>
    obtain ⟨hle1, hpre1⟩ := stepResult_contrib s op
    obtain ⟨hle2, hpre2⟩ := ih (stepResult s op)
    refine ⟨Nat.le_trans hle1 hle2, fun id hid => ?_⟩
    rw [show run s (op :: rest) = run (stepResult s op) rest from rfl,
      hpre2 id (Nat.le_trans hid hle1), hpre1 id hid]

lemma two_claims_one_settlement (s : ContractState) (k r1 r2 a1 a2 : Nat)
    (hk : k ≠ 0) (ha1 : a1 < U32)
    (hc : (s.royaltyDistributions k).isClaimed = false) :
    ∃ s1 l1 s2 l2 s3,
      claimRoyalty s k r1 = .ok (s1, l1) ∧
      claimRoyalty s1 k r2 = .ok (s2, l2) ∧
      processRoyaltyPayment s2 r1 a1 true = .ok s3 ∧
      (s3.royaltyDistributions k).isClaimed = true ∧
      processRoyaltyPayment s3 r2 a2 true = .error .alreadyProcessed := by
  by_cases h12 : r1 = r2
  · subst h12
    refine ⟨_, _, _, _, _, claimRoyalty_ok_intro s k r1 hc,
      claimRoyalty_ok_intro _ k r1 hc,
      processRoyaltyPayment_ok_intro _ r1 a1 ?_ ?_ ha1, ?_, ?_⟩
    · simp [mapUpdate, hk]
    · simp [mapUpdate, hc]
    · simp [mapUpdate]
    · simp [processRoyaltyPayment, mapUpdate, hk]
  · refine ⟨_, _, _, _, _, claimRoyalty_ok_intro s k r1 hc,
      claimRoyalty_ok_intro _ k r2 hc,
      processRoyaltyPayment_ok_intro _ r1 a1 ?_ ?_ ha1, ?_, ?_⟩
    · simp [mapUpdate, hk, h12]
    · simp [mapUpdate, hc, h12]
    · simp [mapUpdate, h12]
    · simp [processRoyaltyPayment, mapUpdate, hk, h12]

/-! ## Concrete reachable scenario states -/

/-- A reachable state: one contribution (metric ciphertexts 11/12/13,
contributor hash 5, timestamp 100), a pool of 1000, and a pending calculation
request with oracle request id 7 for contribution 1. -/
def preCallbackState : ContractState :=
  run initialState
    [.submit 11 12 13 5 100, .deposit 1000, .requestCalc 1 7]

/-- preCallbackState after a successful calculation callback for request id 7
with decoded metrics (100, 80, 60): the distribution for contributor hash 5 is
(share 83, payment 8, unclaimed) and the audit record for contribution 1 is
(83, 8, revealed). -/
def sampleState : ContractState :=
  stepResult preCallbackState (.calcCallback 7 100 80 60 true)

/-- Two contributions sharing contributor hash 5, pool 1000, two pending
calculation requests (id 7 for contribution 1, id 8 for contribution 2), the
first callback already processed successfully. -/
def c2PreState : ContractState :=
  run initialState
    [.submit 11 12 13 5 100, .submit 21 22 23 5 101, .deposit 1000,
     .requestCalc 1 7, .requestCalc 2 8, .calcCallback 7 100 80 60 true]

/-- sampleState after a full claim round-trip (request id 9) for contributor
hash 5: the distribution's claimed flag is now true. -/
def claimedState : ContractState :=
  run sampleState [.requestClaim 5 9, .payCallback 9 8 true]

/-! ## Claim theorems -/

/-- Claim C1, amended. What holds of the code: a callback whose requestId was
never registered (its registry entry is the zero default) fails with the
UnknownRequest revert (require with message Invalid request) and, the call
reverting, mutates no Distribution, RevealedRoyalty or RewardPool state
(conjunct 3: a reverted transaction leaves the state unchanged). What the
counterexample forces us to drop: a successfully processed callback does NOT
remove its registry entry — neither handler deletes the mapping (conjuncts 4
and 5) — so a second callback bearing the same requestId passes the registry
check: a repeated payment callback fails only through the Already processed
claimed-flag guard (conjunct 5), and a repeated calculation callback is not
rejected at all. -/
theorem c1_registry_never_consumed :
    (∀ (s : ContractState) (r ch dq mi : Nat) (p : Bool),
      s.requestToContributionId r = 0 →
      processRoyaltyCalculation s r ch dq mi p = .error .invalidRequest) ∧
    (∀ (s : ContractState) (r a : Nat) (p : Bool),
      s.requestToContributorHash r = 0 →
      processRoyaltyPayment s r a p = .error .invalidRequest) ∧
    (∀ (s : ContractState) (op : Op) (e : SolError),
      applyOp s op = .error e → stepResult s op = s) ∧
    (∀ (s s2 : ContractState) (r ch dq mi : Nat) (p : Bool),
      processRoyaltyCalculation s r ch dq mi p = .ok s2 →
      s2.requestToContributionId = s.requestToContributionId) ∧
    (∀ (s s2 : ContractState) (r a : Nat) (p : Bool),
      processRoyaltyPayment s r a p = .ok s2 →
      s2.requestToContributorHash = s.requestToContributorHash ∧
      ∀ (a2 : Nat) (p2 : Bool),
        processRoyaltyPayment s2 r a2 p2 = .error .alreadyProcessed) := by
  refine ⟨?_, ?_, ?_, ?_, ?_⟩
  · intro s r ch dq mi p h
    unfold processRoyaltyCalculation
    simp [h]
  · intro s r a p h
    unfold processRoyaltyPayment
    simp [h]
  · intro s op e h
    exact stepResult_of_error h
  · intro s s2 r ch dq mi p h
    obtain ⟨share, -, -, -, -, -, h2⟩ := processRoyaltyCalculation_ok_elim h
    subst h2; rfl
  · intro s s2 r a p h
    obtain ⟨h1, hc, -, -, h2⟩ := processRoyaltyPayment_ok_elim h
    subst h2
    refine ⟨rfl, fun a2 p2 => ?_⟩
    unfold processRoyaltyPayment
    simp [h1, mapUpdate]

/-- Claim C1 counterexample: sampleState is preCallbackState immediately after
a successful calculation callback for request id 7, yet an identical second
callback with the same requestId 7 succeeds again — the claim required every
callback with an already-consumed requestId to fail. -/
theorem c1_replayed_callback_succeeds :
    exOk (processRoyaltyCalculation preCallbackState 7 100 80 60 true) = true ∧
    exOk (processRoyaltyCalculation sampleState 7 100 80 60 true) = true :=
  ⟨rfl, rfl⟩

/-- Claim C1 witness: the amended theorem applied to the deployed state and an
unregistered request id 9. -/
theorem c1_witness :
    processRoyaltyCalculation initialState 9 1 2 3 true
      = .error .invalidRequest :=
  c1_registry_never_consumed.1 initialState 9 1 2 3 true rfl

/-- Claim C2, code bug, evaluated at the failing input: in c2PreState the
first calculation callback already created the distribution (83, 8, unclaimed)
for contributor hash 5; the second calculation callback (request id 8, metrics
0/0/200) is accepted — the require only inspects the claimed flag, not
existence — and silently overwrites the distribution with (50, 5, unclaimed),
where the spec mandates an AlreadyDistributed rejection without mutation. -/
theorem c2_second_calculation_overwrites :
    c2PreState.royaltyDistributions 5 = ⟨83, 8, false⟩ ∧
    exOk (processRoyaltyCalculation c2PreState 8 0 0 200 true) = true ∧
    (stepResult c2PreState (.calcCallback 8 0 0 200 true)).royaltyDistributions 5
      = ⟨50, 5, false⟩ :=
  ⟨rfl, rfl, rfl⟩

/-- Claim C3, amended: calculateRoyaltyShare performs no precondition check at
all. For every state and every contributionId — including an id with no
stored contribution and an id whose contributor already has a Distribution —
the call succeeds, registers requestId to contributionId, emits the event and
hands the three metric ciphertexts to the oracle. -/
theorem c3_no_precondition_checks : ∀ (s : ContractState) (cid r : Nat),
    calculateRoyaltyShare s cid r = .ok ({ s with
      requestToContributionId := mapUpdate s.requestToContributionId r cid
      log := s.log ++ [Event.RoyaltyCalculationRequested cid] },
      [(s.contributions cid).encryptedComputeHours,
       (s.contributions cid).encryptedDataQuality,
       (s.contributions cid).encryptedModelImpact]) :=
  calculateRoyaltyShare_eq

/-- Claim C3 counterexample: in sampleState a Distribution already exists for
contribution 1's contributor hash 5, yet calculateRoyaltyShare succeeds
(no AlreadyDistributed failure) and writes the registry entry 9 to 1. -/
theorem c3_succeeds_despite_distribution :
    (sampleState.contributions 1).contributorHash = 5 ∧
    sampleState.royaltyDistributions 5 = ⟨83, 8, false⟩ ∧
    exOk (calculateRoyaltyShare sampleState 1 9) = true ∧
    (calculateRoyaltyShare sampleState 1 9).map
      (fun x => x.1.requestToContributionId 9) = .ok 1 :=
  ⟨rfl, rfl, rfl, rfl⟩

/-- Claim C4, amended: claimRoyalty fails with AlreadyClaimed — issuing no
decryption request — exactly when the decrypted claimed flag is true, and in
every other case succeeds, registering the request and passing the encrypted
payment amount to the oracle. There is no NoDistribution check: when no
Distribution exists the default zero ciphertext decrypts to false and the
claim request proceeds. -/
theorem c4_claim_guard :
    (∀ (s : ContractState) (k r : Nat),
      (s.royaltyDistributions k).isClaimed = true →
      claimRoyalty s k r = .error .alreadyClaimed) ∧
    (∀ (s : ContractState) (k r : Nat),
      (s.royaltyDistributions k).isClaimed = false →
      claimRoyalty s k r = .ok ({ s with
        requestToContributorHash := mapUpdate s.requestToContributorHash r k },
        [(s.royaltyDistributions k).encryptedPaymentAmount])) := by
  constructor
  · intro s k r h
    unfold claimRoyalty
    simp [h]
  · exact claimRoyalty_ok_intro

/-- Claim C4 counterexample: in the freshly deployed state no Distribution
exists for contributor hash 5 (the mapping holds only the zero default), yet
claimRoyalty succeeds and issues a decryption request, registering entry
9 to 5 — the claim required a NoDistribution failure with no request issued. -/
theorem c4_claim_without_distribution_succeeds :
    initialState.royaltyDistributions 5 = ⟨0, 0, false⟩ ∧
    exOk (claimRoyalty initialState 5 9) = true ∧
    (claimRoyalty initialState 5 9).map
      (fun x => x.1.requestToContributorHash 9) = .ok 5 :=
  ⟨rfl, rfl, rfl⟩

/-- Claim C4 witness: the amended theorem applied at claimedState, whose
distribution for hash 5 is claimed. -/
theorem c4_witness :
    claimRoyalty claimedState 5 10 = .error .alreadyClaimed :=
  c4_claim_guard.1 claimedState 5 10 rfl

/-- Claim C5, amended. The floor formulas hold for every decoded metric triple
whose weighted sum fits in uint32 (then every intermediate product also fits)
provided pool times share fits in uint256 — not for ALL decoded values, since
the checked uint32 arithmetic aborts on larger ones (see the counterexample).
Conjunct 1: the share formula; conjunct 2: a callback under those bounds
succeeds and records exactly share and floor(pool * share / 10000), the pool
being read at callback time; conjunct 3: the spec example (100, 80, 60) with
pool 1000 gives share 83 and payment 8. -/
theorem c5_share_payment_formula :
    (∀ ch dq mi : Nat, ch * 40 + dq * 35 + mi * 25 < U32 →
      calculateSharePercentage ch dq mi
        = .ok ((ch * 40 + dq * 35 + mi * 25) / 100)) ∧
    (∀ (s : ContractState) (r ch dq mi : Nat),
      s.requestToContributionId r ≠ 0 →
      (s.royaltyDistributions
        (s.contributions (s.requestToContributionId r)).contributorHash).isClaimed
        = false →
      ch * 40 + dq * 35 + mi * 25 < U32 →
      s.totalRewardPool * ((ch * 40 + dq * 35 + mi * 25) / 100) < U256 →
      ∃ s2, processRoyaltyCalculation s r ch dq mi true = .ok s2 ∧
        (s2.decryptedRoyalties (s.requestToContributionId r)).sharePercentage
          = (ch * 40 + dq * 35 + mi * 25) / 100 ∧
        (s2.decryptedRoyalties (s.requestToContributionId r)).paymentAmount
          = s.totalRewardPool * ((ch * 40 + dq * 35 + mi * 25) / 100) / 10000) ∧
    (calculateSharePercentage 100 80 60 = .ok 83 ∧
      sampleState.decryptedRoyalties 1 = ⟨83, 8, true⟩) := by
  refine ⟨calculateSharePercentage_formula, ?_, rfl, rfl⟩
  intro s r ch dq mi h1 hc hsum hpool
  have hdec : ch < U32 ∧ dq < U32 ∧ mi < U32 := by
    refine ⟨?_, ?_, ?_⟩ <;> omega
  refine ⟨_, processRoyaltyCalculation_ok_intro s r ch dq mi h1 hc hdec _
      (calculateSharePercentage_formula ch dq mi hsum) hpool, ?_, ?_⟩ <;>
    simp [mapUpdate]

/-- Claim C5 counterexample: the decoded metric computeHours = 2^27 is a valid
uint32, and the claim's formula would give share floor(2^27 * 40 / 100) =
53687091; instead the callback on the registered request 7 aborts with an
arithmetic overflow (2^27 * 40 does not fit in uint32) and computes no share
at all. -/
theorem c5_overflow_no_share :
    preCallbackState.requestToContributionId 7 = 1 ∧
    processRoyaltyCalculation preCallbackState 7 (2 ^ 27) 0 0 true
      = .error .overflow :=
  ⟨rfl, rfl⟩

/-- Claim C5 witness: the amended formula applied to the spec's example
metrics. -/
theorem c5_witness :
    calculateSharePercentage 100 80 60
      = .ok ((100 * 40 + 80 * 35 + 60 * 25) / 100) :=
  c5_share_payment_formula.1 100 80 60 (by decide)

/-- Claim C6, confirmed: the claimed flag never reverses — once true it stays
true across every sequence of operations (conjunct 1; the calculation callback
can write claimed = false only where the flag was still false, since a true
flag makes its own require fail). The payment callback flips it only from
false to true after the re-check, failing Already processed otherwise
(conjunct 2; the source's Already processed require on this path is the spec's
AlreadyClaimed). Two claim request/callback pairs for one contributorKey give
exactly one settlement and one rejection (conjunct 3). -/
theorem c6_claimed_monotone :
    (∀ (s : ContractState) (ops : List Op) (k : Nat),
      (s.royaltyDistributions k).isClaimed = true →
      ((run s ops).royaltyDistributions k).isClaimed = true) ∧
    (∀ (s s2 : ContractState) (r a : Nat) (p : Bool),
      processRoyaltyPayment s r a p = .ok s2 →
      (s.royaltyDistributions (s.requestToContributorHash r)).isClaimed = false ∧
      (s2.royaltyDistributions (s.requestToContributorHash r)).isClaimed = true) ∧
    (∀ (s : ContractState) (k r1 r2 a1 a2 : Nat),
      k ≠ 0 → a1 < U32 →
      (s.royaltyDistributions k).isClaimed = false →
      ∃ s1 l1 s2 l2 s3,
        claimRoyalty s k r1 = .ok (s1, l1) ∧
        claimRoyalty s1 k r2 = .ok (s2, l2) ∧
        processRoyaltyPayment s2 r1 a1 true = .ok s3 ∧
        (s3.royaltyDistributions k).isClaimed = true ∧
        processRoyaltyPayment s3 r2 a2 true = .error .alreadyProcessed) := by
  refine ⟨run_claimed_true, ?_, two_claims_one_settlement⟩
  intro s s2 r a p h
  obtain ⟨h1, hcl, hp, ha, h2⟩ := processRoyaltyPayment_ok_elim h
  subst h2
  exact ⟨hcl, by simp [mapUpdate]⟩

/-- Claim C6 witness: claimed-flag persistence applied to claimedState (whose
distribution for hash 5 is claimed) across two further operations. -/
theorem c6_witness :
    ((run claimedState
        [Op.requestClaim 5 13, Op.calcCallback 7 100 80 60 true]).royaltyDistributions
      5).isClaimed = true :=
  c6_claimed_monotone.1 claimedState
    [Op.requestClaim 5 13, Op.calcCallback 7 100 80 60 true] 5 rfl

/-- Claim C7, amended. Each successful submission assigns the next sequential
id contributionCount + 1 (starting from 1 on a fresh deployment), stores the
record verbatim at that id, and emits the id in the ContributionRecorded
event — but the Solidity function declares no return value, so the id is NOT
returned to the caller (the ABI return list is empty; see the counterexample).
Conjunct 2: across any sequence of operations the count never decreases and
already-assigned records are never updated or deleted, so ids are unique and
strictly increasing. -/
theorem c7_sequential_ids :
    (∀ (s : ContractState) (ch dq mi hash t : Nat),
      s.contributionCount + 1 < U256 →
      submitEncryptedContribution s ch dq mi hash t = .ok ({ s with
        contributionCount := s.contributionCount + 1
        contributions := mapUpdate s.contributions (s.contributionCount + 1)
          ⟨s.contributionCount + 1, ch, dq, mi, t, hash⟩
        log := s.log ++
          [Event.ContributionRecorded (s.contributionCount + 1) hash t] },
        [])) ∧
    (∀ (s : ContractState) (ops : List Op),
      s.contributionCount ≤ (run s ops).contributionCount ∧
      ∀ id, id ≤ s.contributionCount →
        (run s ops).contributions id = s.contributions id) :=
  ⟨submit_ok_intro, run_contrib⟩

/-- Claim C7 counterexample: the first submission assigns id 1, but the ABI
return of the call is the empty tuple, not the id — the claim's "returns that
id to the caller" fails (the id is only observable through the event). -/
theorem c7_submit_returns_no_id :
    (submitEncryptedContribution initialState 11 12 13 5 100).map Prod.snd
      = .ok [] ∧
    (submitEncryptedContribution initialState 11 12 13 5 100).map
      (fun x => x.1.contributionCount) = .ok 1 ∧
    (Except.ok ([] : List Nat) : Except SolError (List Nat)) ≠ .ok [1] :=
  ⟨rfl, rfl, by simp⟩

/-- Claim C7 witness: the amended submission theorem applied to the deployed
state, assigning id 1. -/
theorem c7_witness :
    submitEncryptedContribution initialState 11 12 13 5 100
      = .ok ({ initialState with
        contributionCount := initialState.contributionCount + 1
        contributions := mapUpdate initialState.contributions
          (initialState.contributionCount + 1)
          ⟨initialState.contributionCount + 1, 11, 12, 13, 100, 5⟩
        log := initialState.log ++
          [Event.ContributionRecorded (initialState.contributionCount + 1) 5 100] },
        []) :=
  c7_sequential_ids.1 initialState 11 12 13 5 100 (by decide)

/-- Claim C8, confirmed: a deposit adds exactly the (non-negative) amount to
the pool (conjunct 1); no other operation changes the pool (conjunct 2); for
any interleaving of deposits with other operations — calculation callbacks
included — the final pool is the prior value plus the sum of the deposited
amounts (conjunct 3, under the uint256 no-overflow side condition of the
checked addition); and the pool never decreases (conjunct 4). -/
theorem c8_pool_monotone_sum :
    (∀ (s : ContractState) (v : Nat),
      s.totalRewardPool + v < U256 →
      depositRewardPool s v = .ok { s with
        totalRewardPool := s.totalRewardPool + v
        log := s.log ++ [Event.RewardPoolDeposited v] }) ∧
    (∀ (s : ContractState) (op : Op),
      (∀ v, op ≠ Op.deposit v) →
      (stepResult s op).totalRewardPool = s.totalRewardPool) ∧
    (∀ (s : ContractState) (ops : List Op),
      s.totalRewardPool + depositSum ops < U256 →
      (run s ops).totalRewardPool = s.totalRewardPool + depositSum ops) ∧
    (∀ (s : ContractState) (ops : List Op),
      s.totalRewardPool ≤ (run s ops).totalRewardPool) := by
  refine ⟨depositRewardPool_ok_intro, ?_, run_pool_sum, run_pool_mono⟩
  intro s op hnd
  cases hstep : applyOp s op with
  | error e => rw [stepResult_of_error hstep]
  | ok s2 =>
    rw [stepResult_of_ok hstep, applyOp_ok_pool hstep]
    cases op with
    | deposit v => exact absurd rfl (hnd v)
    | submit ch dq mi hash t => simp [depositAmount]
    | requestCalc cid r => simp [depositAmount]
    | calcCallback r ch dq mi p => simp [depositAmount]
    | requestClaim kk r => simp [depositAmount]
    | payCallback r a p => simp [depositAmount]

/-- Claim C8 witness: the interleaving sum applied to two deposits around a
submission. -/
theorem c8_witness :
    (run initialState [Op.deposit 1000, Op.submit 11 12 13 5 100,
        Op.deposit 234]).totalRewardPool
      = initialState.totalRewardPool
        + depositSum [Op.deposit 1000, Op.submit 11 12 13 5 100,
            Op.deposit 234] :=
  c8_pool_monotone_sum.2.2.1 initialState
    [Op.deposit 1000, Op.submit 11 12 13 5 100, Op.deposit 234] (by decide)

/-- Claim C9, confirmed: every successful calculation callback stores the full
uint256 payment floor(pool * share / 10000) in the plaintext DecryptedRoyalty
audit record and the uint32-truncated payment mod 2^32 in the Distribution's
encrypted payment field; the two agree exactly when the payment is below 2^32
(conjunct 1). The claim path reveals and uses the truncated value: claimRoyalty
hands exactly the Distribution's encrypted payment ciphertext to the oracle
(conjunct 2), and processRoyaltyPayment decodes that as the uint32 amount. -/
theorem c9_payment_truncation :
    (∀ (s s2 : ContractState) (r ch dq mi : Nat) (p : Bool),
      processRoyaltyCalculation s r ch dq mi p = .ok s2 →
      ((s2.royaltyDistributions
          (s.contributions (s.requestToContributionId r)).contributorHash).encryptedPaymentAmount
        = (s2.decryptedRoyalties (s.requestToContributionId r)).paymentAmount % U32 ∧
      (s2.decryptedRoyalties (s.requestToContributionId r)).paymentAmount
        = s.totalRewardPool
          * (s2.decryptedRoyalties (s.requestToContributionId r)).sharePercentage
          / 10000 ∧
      ((s2.royaltyDistributions
          (s.contributions (s.requestToContributionId r)).contributorHash).encryptedPaymentAmount
        = (s2.decryptedRoyalties (s.requestToContributionId r)).paymentAmount ↔
        (s2.decryptedRoyalties (s.requestToContributionId r)).paymentAmount < U32))) ∧
    (∀ (s s2 : ContractState) (k r : Nat) (cts : List Nat),
      claimRoyalty s k r = .ok (s2, cts) →
      cts = [(s.royaltyDistributions k).encryptedPaymentAmount]) := by
  constructor
  · intro s s2 r ch dq mi p h
    obtain ⟨share, h1, hc, hp, hcs, hpool, h2⟩ := processRoyaltyCalculation_ok_elim h
    subst h2
    refine ⟨by simp [mapUpdate], by simp [mapUpdate], ?_⟩
    simp only [mapUpdate_same]
    exact Nat.mod_eq_iff_lt (by norm_num [U32])
  · intro s s2 k r cts h
    exact (claimRoyalty_ok_elim h).2.2

/-- Claim C9 witness: applied to the concrete successful callback that
produces sampleState from preCallbackState. -/
theorem c9_witness :
    (sampleState.royaltyDistributions
        (preCallbackState.contributions
          (preCallbackState.requestToContributionId 7)).contributorHash).encryptedPaymentAmount
      = (sampleState.decryptedRoyalties
          (preCallbackState.requestToContributionId 7)).paymentAmount % U32 ∧
    (sampleState.decryptedRoyalties
        (preCallbackState.requestToContributionId 7)).paymentAmount
      = preCallbackState.totalRewardPool
        * (sampleState.decryptedRoyalties
            (preCallbackState.requestToContributionId 7)).sharePercentage
        / 10000 ∧
    ((sampleState.royaltyDistributions
        (preCallbackState.contributions
          (preCallbackState.requestToContributionId 7)).contributorHash).encryptedPaymentAmount
      = (sampleState.decryptedRoyalties
          (preCallbackState.requestToContributionId 7)).paymentAmount ↔
      (sampleState.decryptedRoyalties
          (preCallbackState.requestToContributionId 7)).paymentAmount < U32) :=
  c9_payment_truncation.1 preCallbackState sampleState 7 100 80 60 true rfl

/-- Claim C10, confirmed: the share computation runs in checked uint32
arithmetic. Whenever a product or the weighted sum does not fit in uint32 —
each product is at most the sum, so the condition is exactly that the sum
reaches 2^32 — the computation reverts with an overflow panic (conjunct 1),
and a calculation callback carrying such decoded metrics aborts with the
overflow error, writing no Distribution and no audit entry (conjunct 2). The
floor formula's result is produced only when every intermediate fits in
uint32 (conjunct 3). -/
theorem c10_checked_arithmetic :
    (∀ ch dq mi : Nat, U32 ≤ ch * 40 + dq * 35 + mi * 25 →
      calculateSharePercentage ch dq mi = .error .overflow) ∧
    (∀ (s : ContractState) (r ch dq mi : Nat),
      s.requestToContributionId r ≠ 0 →
      (s.royaltyDistributions
        (s.contributions (s.requestToContributionId r)).contributorHash).isClaimed
        = false →
      ch < U32 → dq < U32 → mi < U32 →
      U32 ≤ ch * 40 + dq * 35 + mi * 25 →
      processRoyaltyCalculation s r ch dq mi true = .error .overflow ∧
      stepResult s (Op.calcCallback r ch dq mi true) = s) ∧
    (∀ (ch dq mi v : Nat),
      calculateSharePercentage ch dq mi = .ok v →
      ch * 40 < U32 ∧ dq * 35 < U32 ∧ mi * 25 < U32 ∧
      ch * 40 + dq * 35 + mi * 25 < U32 ∧
      v = (ch * 40 + dq * 35 + mi * 25) / 100) := by
  refine ⟨calculateSharePercentage_overflow, ?_,
    fun ch dq mi v h => calculateSharePercentage_ok_elim h⟩
  intro s r ch dq mi h1 hc hch hdq hmi hsum
  have herr : processRoyaltyCalculation s r ch dq mi true = .error .overflow := by
    unfold processRoyaltyCalculation
    simp [h1, hc, hch, hdq, hmi, calculateSharePercentage_overflow ch dq mi hsum]
  exact ⟨herr, stepResult_of_error herr⟩

/-- Claim C10 witness: the overflow abort applied to the registered request 7
with decoded metrics (0, 2^28, 0), whose dataQuality product exceeds uint32. -/
theorem c10_witness :
    processRoyaltyCalculation preCallbackState 7 0 (2 ^ 28) 0 true
      = .error .overflow ∧
    stepResult preCallbackState (Op.calcCallback 7 0 (2 ^ 28) 0 true)
      = preCallbackState :=
  c10_checked_arithmetic.2.1 preCallbackState 7 0 (2 ^ 28) 0 (by decide) rfl
    (by decide) (by decide) (by decide) (by decide)

end AiRoyalties
